import Mathlib

/-!
Verification development for the DigitalTwin repository.

Each definition is a shallow embedding of a function of the source
(`src/App.tsx`, `src/components/ChatSession.tsx`,
`src/components/Dashboard.tsx`, `src/components/CreativeStudio.tsx`,
`src/components/Translator.tsx`, `src/services/gemini.ts`); theorems at the
end settle the testable properties of the specification against these
embeddings.
-/

namespace DigitalTwin

/-- `MessageRole` enum from the repository's shared types. -/
inductive MessageRole where
  | user
  | model
  | system
deriving DecidableEq, Repr

/-- `ChatMessage.fileData` payload (mime type + base64 bytes + name). -/
structure FileData where
  mimeType : String
  data : String
  name : String
deriving DecidableEq, Repr

/-- `ChatMessage` from the repository's shared types. -/
structure ChatMessage where
  id : String
  role : MessageRole
  content : String
  image : Option String := none
  fileData : Option FileData := none
  isThinking : Option Bool := none
  groundingUrls : Option (List (String × String)) := none
deriving DecidableEq, Repr

/-- One entry of the role-tagged history sent to the Gateway
(`{ role, parts: [{ text }] }` in `ChatSession.handleSend`; the code always
builds exactly one part per message). -/
structure HistoryMessage where
  role : MessageRole
  text : String
deriving DecidableEq, Repr

/-- The profile-context string prefixed onto the first history message
(`ChatSession.handleSend`, line 157); `profileJson` stands for
`JSON.stringify(profile)`. -/
def profileContextHeader (profileJson : String) : String :=
  "[System Context: Current User Profile (Values/Traits): " ++ profileJson ++
    "]\n\n"

/-- `newMessages.slice(-20)` (`ChatSession.handleSend`, line 147):
the most recent 20 entries of the log (the whole log when shorter). -/
def sliceLast20 (log : List ChatMessage) : List ChatMessage :=
  log.drop (log.length - 20)

/-- The trimmed context window of `ChatSession.handleSend` (lines 147-149):
slice the last 20 messages FIRST, then drop system-role messages. -/
def trimmedWindow (log : List ChatMessage) : List ChatMessage :=
  (sliceLast20 log).filter (fun m => m.role != MessageRole.system)

/-- The outbound role-tagged history of `ChatSession.handleSend`
(lines 147-158): the trimmed window mapped to `{role, parts:[{text}]}`, with
the profile context prefixed onto the first entry when one exists. -/
def assembleHistory (log : List ChatMessage) (profileJson : String) :
    List HistoryMessage :=
  let history := (trimmedWindow log).map fun m => HistoryMessage.mk m.role m.content
  match history with
  | [] => []
  | h :: t => { h with text := profileContextHeader profileJson ++ h.text } :: t

/-- The user message appended to the log by a non-retry send
(`ChatSession.handleSend`, lines 128-134). -/
def mkUserMessage (msgId content : String) (attachment : Option FileData)
    (imagePreview : Option String) : ChatMessage :=
  { id := msgId, role := MessageRole.user, content := content,
    fileData := attachment, image := imagePreview }

/-- The argument tuple of `sendChatMessage` in `src/services/gemini.ts`
(history, new message, options). -/
structure SendChatRequest where
  history : List HistoryMessage
  message : String
  useThinking : Bool
  useSearch : Bool
  fileData : Option FileData
deriving Repr

/-- A non-retry send of `ChatSession.handleSend`: append the new user message
to the log, then dispatch `sendChatMessage` with the assembled history, the
same content as the new-message parameter, and the option flags.  Returns the
updated log together with the outbound request. -/
def buildTurnRequest (messages : List ChatMessage) (profileJson : String)
    (msgId content : String) (attachment : Option FileData)
    (imagePreview : Option String) (useThinking useSearch : Bool) :
    List ChatMessage × SendChatRequest :=
  let newMessages := messages ++ [mkUserMessage msgId content attachment imagePreview]
  (newMessages,
   { history := assembleHistory newMessages profileJson,
     message := content,
     useThinking := useThinking,
     useSearch := useSearch,
     fileData := attachment })

/-- The context window as the specification words it: drop system-role
messages first, then take the last 20 of the remainder.  (Stated from the
spec, for comparison with `trimmedWindow`, which embeds the code.) -/
def specContextWindow (log : List ChatMessage) : List ChatMessage :=
  let nonSystem := log.filter (fun m => m.role != MessageRole.system)
  nonSystem.drop (nonSystem.length - 20)

/-- A 21-message log: 20 user messages followed by one system message. -/
def exLogC1 : List ChatMessage :=
  List.replicate 20
      ({ id := "u", role := MessageRole.user, content := "hi" } : ChatMessage)
    ++ [{ id := "s", role := MessageRole.system, content := "done" }]

/- ### Dynamic JSON values, profile sanitize and load -/

/-- Minimal model of the JSON / JavaScript values the app handles dynamically
(results of `JSON.parse`).  Numbers are modelled as integers; object fields
keep their textual order. -/
inductive Json where
  | null
  | bool (b : Bool)
  | num (n : Int)
  | str (s : String)
  | arr (elems : List Json)
  | obj (fields : List (String × Json))
deriving Repr

/-- First binding of a key in an object's field list. -/
def lookupField : List (String × Json) → String → Option Json
  | [], _ => none
  | (k, v) :: rest, key => if k == key then some v else lookupField rest key

/-- JavaScript property access `value.key`: `none` models `undefined`
(absent key, or access on a non-object primitive). -/
def getField : Json → String → Option Json
  | Json.obj fields, key => lookupField fields key
  | _, _ => none

/-- `Array.isArray(v)` on a possibly-undefined value. -/
def isArrayValue : Option Json → Bool
  | some (Json.arr _) => true
  | _ => false

/-- `Array.isArray(v) ? v : []` — the per-field normalization of
`Dashboard.handleFileChange`. -/
def arrayOrEmpty : Option Json → List Json
  | some (Json.arr elems) => elems
  | _ => []

/-- JavaScript truthiness of a possibly-undefined value. -/
def truthy : Option Json → Bool
  | none => false
  | some Json.null => false
  | some (Json.bool b) => b
  | some (Json.num n) => n != 0
  | some (Json.str s) => s != ""
  | some (Json.arr _) => true
  | some (Json.obj _) => true

/-- `UserMemoryProfile` as the running code actually holds it after a load:
the six category fields hold whatever array elements the input provided
(element types unchecked by the code), `lastUpdated` holds an arbitrary
dynamic value. -/
structure UserMemoryProfileDyn where
  values : List Json
  personalityTraits : List Json
  mentalModels : List Json
  workHabits : List Json
  decisionPrinciples : List Json
  interests : List Json
  lastUpdated : Json

/-- `INITIAL_PROFILE` from `src/App.tsx` (lines 20-28). -/
def INITIAL_PROFILE : UserMemoryProfileDyn :=
  { values := [], personalityTraits := [], mentalModels := [],
    workHabits := [], decisionPrinciples := [], interests := [],
    lastUpdated := Json.str "" }

/-- The JSON object shape of a profile record
(`JSON.stringify`/`JSON.parse` round trip of `UserMemoryProfile`). -/
def profileDynToJson (p : UserMemoryProfileDyn) : Json :=
  Json.obj [("values", Json.arr p.values),
    ("personalityTraits", Json.arr p.personalityTraits),
    ("mentalModels", Json.arr p.mentalModels),
    ("workHabits", Json.arr p.workHabits),
    ("decisionPrinciples", Json.arr p.decisionPrinciples),
    ("interests", Json.arr p.interests),
    ("lastUpdated", p.lastUpdated)]

/-- The six category field names of `UserMemoryProfile`. -/
def sixCategoryKeys : List String :=
  ["values", "personalityTraits", "mentalModels", "workHabits",
   "decisionPrinciples", "interests"]

/-- The sanitize step of `Dashboard.handleFileChange` (file import,
`src/components/Dashboard.tsx` lines 196-207): each category field is kept
when it is an array and replaced by `[]` otherwise;
`lastUpdated` is `json.lastUpdated || new Date().toLocaleString()`, with
`now` standing for the current `toLocaleString()` value. -/
def sanitizeImportedProfile (now : String) (json : Json) :
    UserMemoryProfileDyn :=
  { values := arrayOrEmpty (getField json "values"),
    personalityTraits := arrayOrEmpty (getField json "personalityTraits"),
    mentalModels := arrayOrEmpty (getField json "mentalModels"),
    workHabits := arrayOrEmpty (getField json "workHabits"),
    decisionPrinciples := arrayOrEmpty (getField json "decisionPrinciples"),
    interests := arrayOrEmpty (getField json "interests"),
    lastUpdated :=
      if truthy (getField json "lastUpdated") then
        (getField json "lastUpdated").getD Json.null
      else Json.str now }

/-- The startup profile load of `src/App.tsx` (lines 145-149):
`setProfile(JSON.parse(savedProfile))` — the parsed value is installed
AS-IS, with no sanitize step.  `saved = none` models both a missing
`mirror_ai_profile` key and a `JSON.parse` failure (caught; the profile
stays `current` in either case). -/
def loadStoredProfile (saved : Option Json) (current : Json) : Json :=
  match saved with
  | some j => j
  | none => current

/- ### Profile Synthesizer result handling (`analyzeProfile`) -/

/-- The three shapes a structured completion can land in at the end of
`analyzeProfile`'s `runAnalysis` (`src/services/gemini.ts`, lines 167-169):
no text at all, text that `JSON.parse` rejects, or a parsed JSON value. -/
inductive AnalyzeResponse where
  | noText
  | unparseable
  | parsed (j : Json)

/-- The result handling of `analyzeProfile` (`src/services/gemini.ts`, lines
167-169): `if (!text) throw new Error("No analysis generated"); return
JSON.parse(text) as UserMemoryProfile;` — the parsed value is returned
unchanged (the `as` cast performs no schema repair). -/
def analyzeProfileResult : AnalyzeResponse → Except String Json
  | AnalyzeResponse.noText => Except.error "No analysis generated"
  | AnalyzeResponse.unparseable => Except.error "SyntaxError"
  | AnalyzeResponse.parsed j => Except.ok j

/- ### AI Gateway retry policy (`retryOperation`) -/

/-- Error value thrown by the capability provider, with the two fields
`retryOperation` inspects (`error.message?.includes('unavailable')`,
`error.status === 503 / 429`); both may be absent. -/
structure GenError where
  message : Option String
  status : Option Nat
deriving DecidableEq, Repr

/-- Substring match of `pat` at the head of `s`. -/
def charsMatchHere : List Char → List Char → Bool
  | _, [] => true
  | [], _ :: _ => false
  | c :: cs, p :: ps => c == p && charsMatchHere cs ps

/-- Substring search over character lists. -/
def charsIncludes : List Char → List Char → Bool
  | [], pat => charsMatchHere [] pat
  | c :: rest, pat => charsMatchHere (c :: rest) pat || charsIncludes rest pat

/-- JavaScript `String.prototype.includes`. -/
def strIncludes (s pat : String) : Bool :=
  charsIncludes s.toList pat.toList

/-- The transient-error classification of `retryOperation`
(`src/services/gemini.ts`, line 32). -/
def isUnavailable (e : GenError) : Bool :=
  (match e.message with
   | some msg => strIncludes msg "unavailable"
   | none => false) ||
  e.status == some 503 || e.status == some 429

/-- Result of one invocation of an operation passed to `retryOperation`:
the promise either resolves with a value or rejects with an error. -/
inductive OpOutcome (T : Type) where
  | ok (value : T)
  | err (e : GenError)

/-- A rejected promise surfaces as a thrown error, a resolved one as a
value. -/
def opOutcomeToExcept {T : Type} : OpOutcome T → Except GenError T
  | OpOutcome.ok v => Except.ok v
  | OpOutcome.err e => Except.error e

/-- Execution trace of one `retryOperation` call: final result, number of
invocations of the primary operation, delays slept before each retry (in
order), and number of invocations of the fallback operation. -/
structure RetryTrace (T : Type) where
  result : Except GenError T
  primaryCalls : Nat
  sleeps : List Nat
  fallbackCalls : Nat

/-- `retryOperation` from `src/services/gemini.ts` (lines 23-47).  `op n` is
the outcome of the `n`-th invocation of the primary operation, `fallback`
the outcome of the fallback operation when one is configured.  The branch
structure mirrors the source: on error, if `retries > 0` and the error is
transient, sleep `delay` and recurse with `retries - 1` and `delay * 2`;
otherwise the guard `fallbackOperation && (isUnavailable || retries === 0)`
(flattened here into the case split: it is false when `retries > 0` and the
error is non-transient, and equals `fallbackOperation` when `retries === 0`)
runs the fallback once; otherwise the error is rethrown. -/
def retryOperation {T : Type} (op : Nat → OpOutcome T) :
    Nat → Nat → Nat → Option (OpOutcome T) → RetryTrace T
  | 0, n, _, fallback =>
    match op n with
    | OpOutcome.ok v =>
      { result := Except.ok v, primaryCalls := 1, sleeps := [],
        fallbackCalls := 0 }
    | OpOutcome.err e =>
      match fallback with
      | some fb =>
        { result := opOutcomeToExcept fb, primaryCalls := 1, sleeps := [],
          fallbackCalls := 1 }
      | none =>
        { result := Except.error e, primaryCalls := 1, sleeps := [],
          fallbackCalls := 0 }
  | r + 1, n, delay, fallback =>
    match op n with
    | OpOutcome.ok v =>
      { result := Except.ok v, primaryCalls := 1, sleeps := [],
        fallbackCalls := 0 }
    | OpOutcome.err e =>
      if isUnavailable e then
        let rest := retryOperation op r (n + 1) (delay * 2) fallback
        { result := rest.result, primaryCalls := rest.primaryCalls + 1,
          sleeps := delay :: rest.sleeps, fallbackCalls := rest.fallbackCalls }
      else
        { result := Except.error e, primaryCalls := 1, sleeps := [],
          fallbackCalls := 0 }

/-- A primary operation that always rejects with HTTP 503. -/
def transientOnlyOp : Nat → OpOutcome Nat :=
  fun _ => OpOutcome.err { message := none, status := some 503 }

/- ### Prompt-engineering session store (soft delete) -/

/-- `PromptSession` from the repository's shared types; the optional
`isDeleted?` flag is `none` when absent (`undefined`). -/
structure PromptSession where
  id : String
  title : String
  timestamp : Nat
  dateStr : String
  messages : List ChatMessage
  isDeleted : Option Bool := none
deriving DecidableEq, Repr

/-- `App.handleDeletePromptSession` (`src/App.tsx`, lines 246-252): map over
the store, setting `isDeleted: true` on the session(s) with the given id;
no data is removed. -/
def handleDeletePromptSession (sessions : List PromptSession) (id : String) :
    List PromptSession :=
  sessions.map fun s =>
    if s.id == id then { s with isDeleted := some true } else s

/-- `App.handleRestorePromptSession` (`src/App.tsx`, lines 254-260): clear
the deletion flag (`isDeleted: false`) on the session(s) with the given
id. -/
def handleRestorePromptSession (sessions : List PromptSession) (id : String) :
    List PromptSession :=
  sessions.map fun s =>
    if s.id == id then { s with isDeleted := some false } else s

/-- JavaScript truthiness of `s.isDeleted` (`undefined` and `false` are
falsy). -/
def isDeletedFlag (s : PromptSession) : Bool :=
  s.isDeleted.getD false

/-- `App.handleEmptyRecycleBin` (`src/App.tsx`, lines 262-270): keep only
the sessions with `!s.isDeleted` — the only irreversible removal. -/
def handleEmptyRecycleBin (sessions : List PromptSession) :
    List PromptSession :=
  sessions.filter fun s => !(isDeletedFlag s)

/-- A concrete two-session store. -/
def exPromptSessions : List PromptSession :=
  [{ id := "a", title := "first", timestamp := 1, dateStr := "d1",
     messages := [] },
   { id := "b", title := "second", timestamp := 2, dateStr := "d2",
     messages := [] }]

/- ### Live audio playback scheduling (`Translator.tsx` live session) -/

/-- One scheduled output audio source: scheduled start time and buffer
duration, in seconds (exact arithmetic models the `AudioContext` clock). -/
structure ScheduledSource where
  start : ℚ
  duration : ℚ
deriving DecidableEq, Repr

/-- State touched by the live `onmessage` handler (`Translator.tsx`):
`nextStartTimeRef`, the `sourcesRef` set of scheduled/playing sources, the
two transcription accumulators and the flushed transcript. -/
structure LiveAudioState where
  nextStartTime : ℚ
  sources : List ScheduledSource
  userBuffer : String
  modelBuffer : String
  transcript : List (MessageRole × String)

/-- One incoming `LiveServerMessage` as far as the handler inspects it:
an optional model audio frame (represented by its decoded duration),
optional transcription deltas, and the turn-complete / interrupted flags. -/
structure LiveServerMessage where
  audioDuration : Option ℚ
  inputTranscriptionText : Option String
  outputTranscriptionText : Option String
  turnComplete : Bool
  interrupted : Bool

/-- Audio scheduling step of the `onmessage` handler (`Translator.tsx`,
lines 267-279): `nextStartTime = max(nextStartTime, ctx.currentTime)`, the
source starts there and is added to the set, and `nextStartTime` advances by
the buffer duration. -/
def scheduleAudioFrame (st : LiveAudioState) (clock d : ℚ) : LiveAudioState :=
  let t0 := max st.nextStartTime clock
  { st with nextStartTime := t0 + d,
            sources := st.sources ++ [{ start := t0, duration := d }] }

/-- Turn-complete flush of the user accumulator (`Translator.tsx`,
lines 289-292): a non-empty buffer becomes one transcript entry and is
cleared. -/
def flushUserBuffer (st : LiveAudioState) : LiveAudioState :=
  if st.userBuffer != "" then
    { st with transcript := st.transcript ++ [(MessageRole.user, st.userBuffer)],
              userBuffer := "" }
  else st

/-- Turn-complete flush of the model accumulator (`Translator.tsx`,
lines 293-296). -/
def flushModelBuffer (st : LiveAudioState) : LiveAudioState :=
  if st.modelBuffer != "" then
    { st with
        transcript := st.transcript ++ [(MessageRole.model, st.modelBuffer)],
        modelBuffer := "" }
  else st

/-- Turn-complete flush (`Translator.tsx`, lines 288-297): user buffer first,
then model buffer, in source order. -/
def flushBuffers (st : LiveAudioState) : LiveAudioState :=
  flushModelBuffer (flushUserBuffer st)

/-- The live `onmessage` handler (`Translator.tsx`, lines 264-305), in
source order: schedule any audio frame, append any transcription deltas,
flush on turn completion, and on an interruption signal stop and discard
every scheduled source and reset the scheduling clock to 0. -/
def handleLiveMessage (st : LiveAudioState) (clock : ℚ)
    (msg : LiveServerMessage) : LiveAudioState :=
  let st1 :=
    match msg.audioDuration with
    | some d => scheduleAudioFrame st clock d
    | none => st
  let st2 :=
    { st1 with
        userBuffer := st1.userBuffer ++ msg.inputTranscriptionText.getD "",
        modelBuffer := st1.modelBuffer ++ msg.outputTranscriptionText.getD "" }
  let st3 := if msg.turnComplete then flushBuffers st2 else st2
  if msg.interrupted then { st3 with sources := [], nextStartTime := 0 }
  else st3

/-- A run of consecutive audio frames while the session stays open: each
element of `frames` is `(ctx.currentTime at arrival, buffer duration)`.
Returns the final state and, in arrival order, each frame's scheduled
`(start, duration)`. -/
def runAudioFrames : LiveAudioState → List (ℚ × ℚ) →
    LiveAudioState × List (ℚ × ℚ)
  | st, [] => (st, [])
  | st, (clock, d) :: rest =>
    let next := runAudioFrames (scheduleAudioFrame st clock d) rest
    (next.1, (max st.nextStartTime clock, d) :: next.2)

/-- A concrete live-audio state with one scheduled source and a nonzero
clock. -/
def exLiveState : LiveAudioState :=
  { nextStartTime := 5, sources := [{ start := 3, duration := 2 }],
    userBuffer := "", modelBuffer := "", transcript := [] }

/-- A message carrying both an audio frame and the interrupted flag. -/
def exInterruptMsg : LiveServerMessage :=
  { audioDuration := some 1, inputTranscriptionText := none,
    outputTranscriptionText := none, turnComplete := false,
    interrupted := true }

/- ### Decision records and profile mutation (`App.tsx`, `CreativeStudio.tsx`) -/

/-- Expert opinion entry of a `DecisionRecord`. -/
structure ExpertOpinion where
  role : String
  opinion : String
  style : String
deriving DecidableEq, Repr

/-- `DecisionRecord` from the repository's shared types. -/
structure DecisionRecord where
  id : String
  timestamp : String
  question : String
  decision : String
  expertOpinions : Option (List ExpertOpinion)
  contextProfile : UserMemoryProfileDyn

/-- The slice of App-level state relevant to decisions: the shared profile
and the decision archive. -/
structure AppDecisionState where
  profile : UserMemoryProfileDyn
  decisions : List DecisionRecord

/-- `JSON.parse(JSON.stringify(profile))` (`CreativeStudio.tsx`, line 298):
on the modelled dynamic profile values this round trip is the identity —
the snapshot is by value, holding no reference to the live profile. -/
def deepCopyProfile (p : UserMemoryProfileDyn) : UserMemoryProfileDyn := p

/-- `App.handleUpdateProfile` (`src/App.tsx`, lines 194-200): install the new
profile with a fresh `lastUpdated` stamp.  All three mutation paths
(synthesizer merge, manual category edit, file import) funnel through this
handler; the decision archive is not touched. -/
def handleUpdateProfile (st : AppDecisionState)
    (newProfile : UserMemoryProfileDyn) (now : String) : AppDecisionState :=
  { st with profile := { newProfile with lastUpdated := Json.str now } }

/-- `App.handleAddDecision` (`src/App.tsx`, lines 207-211): append the new
record to the archive. -/
def handleAddDecision (st : AppDecisionState) (record : DecisionRecord) :
    AppDecisionState :=
  { st with decisions := st.decisions ++ [record] }

/-- `DecisionSimulator.handleSimulate` (`src/components/CreativeStudio.tsx`,
lines 290-303): build a record whose `contextProfile` is a deep copy of the
profile at creation time, and add it to the archive. -/
def handleSimulate (st : AppDecisionState)
    (recId timestamp question decision : String)
    (experts : Option (List ExpertOpinion)) : AppDecisionState :=
  handleAddDecision st
    { id := recId, timestamp := timestamp, question := question,
      decision := decision, expertOpinions := experts,
      contextProfile := deepCopyProfile st.profile }

/-- A concrete decision-state: one non-trivial profile, empty archive. -/
def exDecState : AppDecisionState :=
  { profile :=
      { values := [Json.str "directness"], personalityTraits := [],
        mentalModels := [], workHabits := [], decisionPrinciples := [],
        interests := [], lastUpdated := Json.str "t0" },
    decisions := [] }

/- ### Helper lemmas on the context window -/

theorem trimmedWindow_sublist (log : List ChatMessage) :
    (trimmedWindow log).Sublist log :=
  (List.filter_sublist _).trans (List.drop_sublist _ _)

theorem trimmedWindow_length_le (log : List ChatMessage) :
    (trimmedWindow log).length ≤ 20 := by
  calc (trimmedWindow log).length
      ≤ (sliceLast20 log).length := (sliceLast20 log).length_filter_le _
    _ ≤ 20 := by
        simp only [sliceLast20, List.length_drop]
        omega

theorem trimmedWindow_append_nonsystem (log : List ChatMessage)
    (u : ChatMessage) (hu : u.role ≠ MessageRole.system) :
    trimmedWindow (log ++ [u]) =
      ((log.drop (log.length + 1 - 20)).filter
        (fun m => m.role != MessageRole.system)) ++ [u] := by
  have hlen : log.length + 1 - 20 ≤ log.length := by omega
  simp only [trimmedWindow, sliceLast20, List.length_append, List.length_cons,
    List.length_nil]
  rw [List.drop_append_of_le_length hlen, List.filter_append]
  simp [hu]

theorem assembleHistory_getElem? (log : List ChatMessage) (profileJson : String)
    (i : Nat) :
    (assembleHistory log profileJson)[i]? =
      ((trimmedWindow log)[i]?).map fun m =>
        HistoryMessage.mk m.role
          (if i = 0 then profileContextHeader profileJson ++ m.content
           else m.content) := by
  unfold assembleHistory
  cases hw : trimmedWindow log with
  | nil => simp
  | cons a t =>
    cases i with
    | zero => simp
    | succ j => simp [List.getElem?_map]

theorem assembleHistory_length (log : List ChatMessage) (profileJson : String) :
    (assembleHistory log profileJson).length = (trimmedWindow log).length := by
  unfold assembleHistory
  cases hw : trimmedWindow log with
  | nil => simp
  | cons a t => simp

/- ### Claim theorems: context window, profile injection, duplicated user text -/

/-- C1 (counterexample): on the 21-message log `exLogC1` (20 user messages
followed by one system message) the history window the code assembles has
only 19 entries, while the most recent 20 non-system messages of the log
number 20 — the code slices the last 20 messages first and only then drops
system-role ones, so the turn history is not "exactly the most recent 20
non-system messages". -/
theorem context_window_claim_counterexample :
    20 < exLogC1.length ∧
    (trimmedWindow exLogC1).length = 19 ∧
    (specContextWindow exLogC1).length = 20 ∧
    trimmedWindow exLogC1 ≠ specContextWindow exLogC1 := by
  refine ⟨by decide, by decide, by decide, ?_⟩
  intro h
  have hlen := congrArg List.length h
  rw [show (trimmedWindow exLogC1).length = 19 from by decide,
    show (specContextWindow exLogC1).length = 20 from by decide] at hlen
  exact absurd hlen (by decide)

/-- C1 (amended): the history assembled for one turn is the non-system
messages among the most recent 20 entries of the session log: it is an
in-order sublist of the log, has at most 20 entries (possibly fewer than 20
even when more than 20 non-system messages exist), contains no system-role
message, and contains every non-system message of the last-20 slice. -/
theorem context_window_bound (log : List ChatMessage) :
    (trimmedWindow log).Sublist log ∧
    (trimmedWindow log).length ≤ 20 ∧
    (∀ m ∈ trimmedWindow log, m.role ≠ MessageRole.system) ∧
    (∀ m ∈ sliceLast20 log, m.role ≠ MessageRole.system →
      m ∈ trimmedWindow log) := by
  refine ⟨trimmedWindow_sublist log, trimmedWindow_length_le log, ?_, ?_⟩
  · intro m hm
    have hp := List.of_mem_filter hm
    simpa using hp
  · intro m hm hrole
    refine List.mem_filter.mpr ⟨hm, ?_⟩
    simpa using hrole

/-- Witness for `context_window_bound`, instantiated at the concrete log
`exLogC1`. -/
theorem context_window_bound_witness :
    ({ id := "u", role := MessageRole.user, content := "hi" } : ChatMessage) ∈
      trimmedWindow exLogC1 :=
  (context_window_bound exLogC1).2.2.2 _ (by decide) (by decide)

/-- C6: in a dispatched non-retry turn the serialized profile snapshot
appears exactly once in the outbound history: the history matches the
trimmed window entry-by-entry (same length, same roles), its first entry's
text is the profile context prefixed to the first window message's content,
and every later entry's text is the corresponding window message's content
unchanged; the history is never empty (the freshly appended user message is
always inside the window). -/
theorem profile_injected_once (messages : List ChatMessage)
    (profileJson msgId content : String) (attachment : Option FileData)
    (imagePreview : Option String) (useThinking useSearch : Bool) :
    0 < ((buildTurnRequest messages profileJson msgId content attachment
        imagePreview useThinking useSearch).2.history).length ∧
    ((buildTurnRequest messages profileJson msgId content attachment
        imagePreview useThinking useSearch).2.history).length =
      (trimmedWindow (messages ++
        [mkUserMessage msgId content attachment imagePreview])).length ∧
    (∀ i : Nat, (((buildTurnRequest messages profileJson msgId content attachment
        imagePreview useThinking useSearch).2.history)[i]?).map
          (fun m : HistoryMessage => m.role) =
      ((trimmedWindow (messages ++
        [mkUserMessage msgId content attachment imagePreview]))[i]?).map
          (fun m : ChatMessage => m.role)) ∧
    (∀ i : Nat, (((buildTurnRequest messages profileJson msgId content attachment
        imagePreview useThinking useSearch).2.history)[i]?).map
          (fun m : HistoryMessage => m.text) =
      ((trimmedWindow (messages ++
        [mkUserMessage msgId content attachment imagePreview]))[i]?).map
          (fun m : ChatMessage =>
            if i = 0 then profileContextHeader profileJson ++ m.content
            else m.content)) := by
  have hreq : (buildTurnRequest messages profileJson msgId content attachment
      imagePreview useThinking useSearch).2.history =
      assembleHistory (messages ++
        [mkUserMessage msgId content attachment imagePreview]) profileJson := rfl
  have hrole : (mkUserMessage msgId content attachment imagePreview).role ≠
      MessageRole.system := by
    simp [mkUserMessage]
  have hwin := trimmedWindow_append_nonsystem messages
    (mkUserMessage msgId content attachment imagePreview) hrole
  refine ⟨?_, ?_, ?_, ?_⟩
  · rw [hreq, assembleHistory_length, hwin]
    simp
  · rw [hreq, assembleHistory_length]
  · intro i
    rw [hreq, assembleHistory_getElem?]
    cases (trimmedWindow (messages ++
      [mkUserMessage msgId content attachment imagePreview]))[i]? <;> simp
  · intro i
    rw [hreq, assembleHistory_getElem?]
    cases (trimmedWindow (messages ++
      [mkUserMessage msgId content attachment imagePreview]))[i]? <;> simp

/-- C10: a non-retry send appends the new user message to the session log,
that message survives as the final entry of the role-tagged history of the
outbound request (verbatim, or with the profile context prefixed when it is
the only window entry), and the same content is passed again as the
new-message parameter of the very same request — the user's text occurs
twice in one outbound call. -/
theorem user_text_sent_twice (messages : List ChatMessage)
    (profileJson msgId content : String) (attachment : Option FileData)
    (imagePreview : Option String) (useThinking useSearch : Bool) :
    (buildTurnRequest messages profileJson msgId content attachment
        imagePreview useThinking useSearch).1 =
      messages ++ [mkUserMessage msgId content attachment imagePreview] ∧
    (buildTurnRequest messages profileJson msgId content attachment
        imagePreview useThinking useSearch).2.message = content ∧
    ∃ lastMsg,
      ((buildTurnRequest messages profileJson msgId content attachment
          imagePreview useThinking useSearch).2.history).getLast? =
        some lastMsg ∧
      lastMsg.role = MessageRole.user ∧
      (lastMsg.text = content ∨
        lastMsg.text = profileContextHeader profileJson ++ content) := by
  refine ⟨rfl, rfl, ?_⟩
  have hreq : (buildTurnRequest messages profileJson msgId content attachment
      imagePreview useThinking useSearch).2.history =
      assembleHistory (messages ++
        [mkUserMessage msgId content attachment imagePreview]) profileJson := rfl
  have hrole : (mkUserMessage msgId content attachment imagePreview).role ≠
      MessageRole.system := by
    simp [mkUserMessage]
  have hwin := trimmedWindow_append_nonsystem messages
    (mkUserMessage msgId content attachment imagePreview) hrole
  have hlen : (assembleHistory (messages ++
      [mkUserMessage msgId content attachment imagePreview])
        profileJson).length =
      ((messages.drop (messages.length + 1 - 20)).filter
        (fun m => m.role != MessageRole.system)).length + 1 := by
    rw [assembleHistory_length, hwin]
    simp
  have hidx := assembleHistory_getElem?
    (messages ++ [mkUserMessage msgId content attachment imagePreview])
    profileJson
    ((messages.drop (messages.length + 1 - 20)).filter
      (fun m => m.role != MessageRole.system)).length
  rw [hwin] at hidx
  have hu_at : (((messages.drop (messages.length + 1 - 20)).filter
      (fun m => m.role != MessageRole.system)) ++
        [mkUserMessage msgId content attachment imagePreview])[
      ((messages.drop (messages.length + 1 - 20)).filter
        (fun m => m.role != MessageRole.system)).length]? =
      some (mkUserMessage msgId content attachment imagePreview) := by
    simp
  rw [hu_at] at hidx
  have hlast : (assembleHistory (messages ++
      [mkUserMessage msgId content attachment imagePreview])
        profileJson).getLast? =
      some (HistoryMessage.mk MessageRole.user
        (if ((messages.drop (messages.length + 1 - 20)).filter
            (fun m => m.role != MessageRole.system)).length = 0 then
          profileContextHeader profileJson ++ content
        else content)) := by
    rw [List.getLast?_eq_getElem?, hlen]
    simpa [mkUserMessage] using hidx
  rw [hreq, hlast]
  refine ⟨_, rfl, rfl, ?_⟩
  by_cases h0 : ((messages.drop (messages.length + 1 - 20)).filter
      (fun m => m.role != MessageRole.system)).length = 0
  · right
    show (if _ = 0 then profileContextHeader profileJson ++ content
      else content) = _
    rw [if_pos h0]
  · left
    show (if _ = 0 then profileContextHeader profileJson ++ content
      else content) = _
    rw [if_neg h0]

/- ### Claim theorems: profile shape / sanitize (C2) -/

/-- C2 (counterexample): the startup localStorage load installs the parsed
blob untouched — a stored profile whose `values` field is `null` is loaded
with `values = null`, not normalized to a list, so not every externally
loaded profile has all six category fields as lists. -/
theorem profile_load_no_sanitize_counterexample :
    loadStoredProfile (some (Json.obj [("values", Json.null)]))
        (profileDynToJson INITIAL_PROFILE) =
      Json.obj [("values", Json.null)] ∧
    getField (loadStoredProfile (some (Json.obj [("values", Json.null)]))
        (profileDynToJson INITIAL_PROFILE)) "values" = some Json.null ∧
    isArrayValue (getField (loadStoredProfile
        (some (Json.obj [("values", Json.null)]))
        (profileDynToJson INITIAL_PROFILE)) "values") = false :=
  ⟨rfl, rfl, rfl⟩

/-- C2 (amended): the FILE-IMPORT path sanitizes — after
`sanitizeImportedProfile` every one of the six category fields is a list
(absent or malformed input becomes the empty list), and the sanitize step is
idempotent (`now ≠ ""` holds for every `toLocaleString()` result).  The
startup localStorage load performs no such normalization. -/
theorem import_sanitize_shape_idempotent (now nowLater : String) (json : Json)
    (hnow : now ≠ "") :
    (∀ key ∈ sixCategoryKeys,
      isArrayValue (getField
        (profileDynToJson (sanitizeImportedProfile now json)) key) = true) ∧
    (isArrayValue (getField json "values") = false →
      (sanitizeImportedProfile now json).values = []) ∧
    sanitizeImportedProfile nowLater
        (profileDynToJson (sanitizeImportedProfile now json)) =
      sanitizeImportedProfile now json := by
  refine ⟨?_, ?_, ?_⟩
  · intro key hk
    simp only [sixCategoryKeys, List.mem_cons, List.not_mem_nil,
      or_false] at hk
    rcases hk with rfl | rfl | rfl | rfl | rfl | rfl
    · rfl
    · rfl
    · rfl
    · rfl
    · rfl
    · rfl
  · intro hmal
    show arrayOrEmpty (getField json "values") = []
    cases hv : getField json "values" with
    | none => rfl
    | some v =>
      cases v with
      | arr elems => rw [hv] at hmal; simp [isArrayValue] at hmal
      | null => rfl
      | bool b => rfl
      | num n => rfl
      | str s => rfl
      | obj fields => rfl
  · have hP : ∀ q : UserMemoryProfileDyn,
        sanitizeImportedProfile nowLater (profileDynToJson q) =
          { q with lastUpdated :=
              if truthy (some q.lastUpdated) then q.lastUpdated
              else Json.str nowLater } := fun q => rfl
    rw [hP]
    have hlu : (sanitizeImportedProfile now json).lastUpdated =
        (if truthy (getField json "lastUpdated") then
          (getField json "lastUpdated").getD Json.null
         else Json.str now) := rfl
    have key : (if truthy (some ((sanitizeImportedProfile now json).lastUpdated))
          then (sanitizeImportedProfile now json).lastUpdated
          else Json.str nowLater) =
        (sanitizeImportedProfile now json).lastUpdated := by
      rw [hlu]
      by_cases h : truthy (getField json "lastUpdated") = true
      · rw [if_pos h]
        cases hv : getField json "lastUpdated" with
        | none => rw [hv] at h; exact absurd h (by simp [truthy])
        | some v =>
          rw [hv] at h
          simp only [Option.getD_some]
          rw [if_pos h]
      · rw [if_neg h]
        have hstr : truthy (some (Json.str now)) = true := by
          simp only [truthy]
          simpa using hnow
        rw [if_pos hstr]
    rw [key]

/-- Witness for `import_sanitize_shape_idempotent`: idempotence at a concrete
malformed import (values field `null`). -/
theorem import_sanitize_witness :
    sanitizeImportedProfile "later"
        (profileDynToJson (sanitizeImportedProfile "2026-10-11"
          (Json.obj [("values", Json.null)]))) =
      sanitizeImportedProfile "2026-10-11" (Json.obj [("values", Json.null)]) :=
  (import_sanitize_shape_idempotent "2026-10-11" "later"
    (Json.obj [("values", Json.null)]) (by decide)).2.2

/- ### Claim theorems: synthesizer missing-field handling (C3) -/

/-- C3 (counterexample): a structured completion that parses but omits
`personalityTraits` is returned by `analyzeProfile` as the updated profile
with that field still absent (`undefined`), not defaulted to the empty
list — the code performs no client-side schema repair. -/
theorem analyze_missing_field_counterexample :
    analyzeProfileResult (AnalyzeResponse.parsed
        (Json.obj [("values", Json.arr [Json.str "directness"])])) =
      Except.ok (Json.obj [("values", Json.arr [Json.str "directness"])]) ∧
    getField (Json.obj [("values", Json.arr [Json.str "directness"])])
        "personalityTraits" = none ∧
    isArrayValue (getField
        (Json.obj [("values", Json.arr [Json.str "directness"])])
        "personalityTraits") = false :=
  ⟨rfl, rfl, rfl⟩

/-- C3 (amended): `analyzeProfile` does not fail because of a missing field —
every parsed completion is accepted and returned unchanged — but a missing
category field remains absent in the returned profile rather than being
defaulted to an empty list; the operation fails only when the response text
is absent or unparseable. -/
theorem analyze_result_passthrough (j : Json) :
    analyzeProfileResult (AnalyzeResponse.parsed j) = Except.ok j ∧
    (∀ key : String, getField j key = none →
      ∃ updated, analyzeProfileResult (AnalyzeResponse.parsed j) =
        Except.ok updated ∧ getField updated key = none) ∧
    (∃ e, analyzeProfileResult AnalyzeResponse.noText = Except.error e) ∧
    (∃ e, analyzeProfileResult AnalyzeResponse.unparseable = Except.error e) :=
  ⟨rfl, fun _ hk => ⟨j, rfl, hk⟩, ⟨_, rfl⟩, ⟨_, rfl⟩⟩

/- ### Claim theorems: Gateway retry bound (C4) -/

/-- C4: an operation that always rejects with a transient error is invoked
exactly `retries + 1` times; the delay slept before each successive retry
doubles from the base delay (`delay * 2 ^ i` before the `i`-th retry);
afterwards the fallback operation is invoked exactly once when configured
(and its outcome becomes the call's result), and with no fallback the call
fails. -/
theorem gateway_retry_bound {T : Type} (op : Nat → OpOutcome T)
    (retries n delay : Nat) (fallback : Option (OpOutcome T))
    (htrans : ∀ k, ∃ e, op k = OpOutcome.err e ∧ isUnavailable e = true) :
    (retryOperation op retries n delay fallback).primaryCalls = retries + 1 ∧
    (retryOperation op retries n delay fallback).sleeps =
      (List.range retries).map (fun i => delay * 2 ^ i) ∧
    (retryOperation op retries n delay fallback).fallbackCalls =
      (if fallback.isSome then 1 else 0) ∧
    (fallback = none →
      ∃ e, (retryOperation op retries n delay fallback).result =
        Except.error e) ∧
    (∀ fb, fallback = some fb →
      (retryOperation op retries n delay fallback).result =
        opOutcomeToExcept fb) := by
  induction retries generalizing n delay with
  | zero =>
    obtain ⟨e, hop, hu⟩ := htrans n
    cases fallback with
    | none =>
      refine ⟨?_, ?_, ?_, ?_, ?_⟩ <;> simp [retryOperation, hop]
    | some fb =>
      refine ⟨?_, ?_, ?_, ?_, ?_⟩ <;> simp [retryOperation, hop]
  | succ r ih =>
    obtain ⟨e, hop, hu⟩ := htrans n
    obtain ⟨ih1, ih2, ih3, ih4, ih5⟩ := ih (n + 1) (delay * 2)
    have hstep : retryOperation op (r + 1) n delay fallback =
        { result := (retryOperation op r (n + 1) (delay * 2) fallback).result,
          primaryCalls :=
            (retryOperation op r (n + 1) (delay * 2) fallback).primaryCalls + 1,
          sleeps :=
            delay :: (retryOperation op r (n + 1) (delay * 2) fallback).sleeps,
          fallbackCalls :=
            (retryOperation op r (n + 1) (delay * 2) fallback).fallbackCalls } := by
      simp [retryOperation, hop, hu]
    refine ⟨?_, ?_, ?_, ?_, ?_⟩
    · rw [hstep]
      simpa using ih1
    · rw [hstep]
      show delay :: (retryOperation op r (n + 1) (delay * 2) fallback).sleeps = _
      rw [ih2, List.range_succ_eq_map, List.map_cons, List.map_map]
      simp only [pow_zero, Nat.mul_one]
      refine congrArg (List.cons delay) ?_
      refine List.map_congr_left ?_
      intro a _
      simp only [Function.comp_apply, pow_succ]
      ring
    · rw [hstep]
      exact ih3
    · intro hnone
      obtain ⟨e2, he2⟩ := ih4 hnone
      rw [hstep]
      exact ⟨e2, he2⟩
    · intro fb hfb
      rw [hstep]
      exact ih5 fb hfb

/-- Witness for `gateway_retry_bound`: the concrete always-503 operation at
`retries = 2`, base delay 1000, with a fallback that resolves with 7 —
three primary attempts, sleeps 1000 then 2000, one fallback call. -/
theorem gateway_retry_bound_witness :
    (retryOperation transientOnlyOp 2 0 1000
      (some (OpOutcome.ok 7))).primaryCalls = 3 ∧
    (retryOperation transientOnlyOp 2 0 1000
      (some (OpOutcome.ok 7))).sleeps = [1000, 2000] ∧
    (retryOperation transientOnlyOp 2 0 1000
      (some (OpOutcome.ok 7))).fallbackCalls = 1 ∧
    (retryOperation transientOnlyOp 2 0 1000
      (some (OpOutcome.ok 7))).result = Except.ok 7 := by
  obtain ⟨h1, h2, h3, h4, h5⟩ := gateway_retry_bound transientOnlyOp 2 0 1000
    (some (OpOutcome.ok 7)) (fun _ => ⟨_, rfl, rfl⟩)
  refine ⟨h1, ?_, ?_, ?_⟩
  · rw [h2]; rfl
  · rw [h3]; rfl
  · rw [h5 _ rfl]; rfl

/- ### Claim theorems: soft-delete round trip and purge (C5) -/

theorem restore_after_delete_eq_map (sessions : List PromptSession)
    (id : String) :
    handleRestorePromptSession (handleDeletePromptSession sessions id) id =
      sessions.map (fun s =>
        if s.id == id then { s with isDeleted := some false } else s) := by
  unfold handleRestorePromptSession handleDeletePromptSession
  rw [List.map_map]
  refine List.map_congr_left ?_
  intro s _
  by_cases h : (s.id == id) = true
  · simp [Function.comp, h]
  · simp [Function.comp, h]

/-- C5: soft delete then restore leaves every session's id, title, date,
timestamp and message log unchanged (only the deletion flag can differ, and
only on the targeted id — sessions with a different id come back verbatim);
and after a soft delete of `id`, emptying the recycle bin leaves no session
with that id in the store. -/
theorem soft_delete_round_trip_and_purge (sessions : List PromptSession)
    (id : String) :
    (handleRestorePromptSession (handleDeletePromptSession sessions id)
      id).length = sessions.length ∧
    (∀ i : Nat,
      ((handleRestorePromptSession (handleDeletePromptSession sessions id)
          id)[i]?).map
        (fun s => (s.id, s.title, s.dateStr, s.timestamp, s.messages)) =
      (sessions[i]?).map
        (fun s => (s.id, s.title, s.dateStr, s.timestamp, s.messages))) ∧
    (∀ i : Nat, ∀ s, sessions[i]? = some s → (s.id == id) = false →
      (handleRestorePromptSession (handleDeletePromptSession sessions id)
        id)[i]? = some s) ∧
    (∀ s ∈ handleEmptyRecycleBin (handleDeletePromptSession sessions id),
      (s.id == id) = false) := by
  refine ⟨?_, ?_, ?_, ?_⟩
  · rw [restore_after_delete_eq_map]
    simp
  · intro i
    rw [restore_after_delete_eq_map, List.getElem?_map]
    cases hs : sessions[i]? with
    | none => rfl
    | some s =>
      show some
          (((if (s.id == id) = true then { s with isDeleted := some false }
              else s)).id,
           ((if (s.id == id) = true then { s with isDeleted := some false }
              else s)).title,
           ((if (s.id == id) = true then { s with isDeleted := some false }
              else s)).dateStr,
           ((if (s.id == id) = true then { s with isDeleted := some false }
              else s)).timestamp,
           ((if (s.id == id) = true then { s with isDeleted := some false }
              else s)).messages) =
        some (s.id, s.title, s.dateStr, s.timestamp, s.messages)
      by_cases h : (s.id == id) = true
      · rw [if_pos h]
      · rw [if_neg h]
  · intro i s hs hid
    have h' : ¬((s.id == id) = true) := by simp [hid]
    rw [restore_after_delete_eq_map, List.getElem?_map, hs]
    show some (if (s.id == id) = true then { s with isDeleted := some false }
        else s) = some s
    rw [if_neg h']
  · intro s hs
    unfold handleEmptyRecycleBin at hs
    rw [List.mem_filter] at hs
    obtain ⟨hmem, hkeep⟩ := hs
    unfold handleDeletePromptSession at hmem
    rw [List.mem_map] at hmem
    obtain ⟨a, _, rfl⟩ := hmem
    by_cases h : (a.id == id) = true
    · rw [if_pos h] at hkeep
      simp [isDeletedFlag] at hkeep
    · rw [if_neg h]
      simpa using h

/-- The second session of `exPromptSessions`. -/
def exSessionB : PromptSession :=
  { id := "b", title := "second", timestamp := 2, dateStr := "d2",
    messages := [] }

/-- Witness for `soft_delete_round_trip_and_purge`: the session that
survives purging after soft-deleting id "a" in the concrete store is the one
with id "b". -/
theorem soft_delete_purge_witness : (exSessionB.id == "a") = false :=
  (soft_delete_round_trip_and_purge exPromptSessions "a").2.2.2 exSessionB
    (by decide)

/- ### Claim theorems: gapless playback scheduling (C7) -/

theorem runAudioFrames_snd_cons (st : LiveAudioState) (c d : ℚ)
    (rest : List (ℚ × ℚ)) :
    (runAudioFrames st ((c, d) :: rest)).2 =
      (max st.nextStartTime c, d) ::
        (runAudioFrames (scheduleAudioFrame st c d) rest).2 := rfl

theorem scheduleAudioFrame_nextStartTime (st : LiveAudioState) (c d : ℚ) :
    (scheduleAudioFrame st c d).nextStartTime =
      max st.nextStartTime c + d := rfl

theorem runAudioFrames_head_start (st : LiveAudioState)
    (frames : List (ℚ × ℚ)) :
    ∀ p ∈ ((runAudioFrames st frames).2).head?, st.nextStartTime ≤ p.1 := by
  cases frames with
  | nil => intro p hp; simp [runAudioFrames] at hp
  | cons f rest =>
    obtain ⟨c, d⟩ := f
    intro p hp
    rw [runAudioFrames_snd_cons] at hp
    simp only [List.head?_cons, Option.mem_def, Option.some.injEq] at hp
    rw [← hp]
    exact le_max_left _ _

theorem runAudioFrames_chain (frames : List (ℚ × ℚ)) :
    ∀ st : LiveAudioState,
      List.Chain' (fun a b : ℚ × ℚ => a.1 + a.2 ≤ b.1)
        ((runAudioFrames st frames).2) := by
  induction frames with
  | nil => intro st; simp [runAudioFrames]
  | cons f rest ih =>
    obtain ⟨c, d⟩ := f
    intro st
    rw [runAudioFrames_snd_cons, List.chain'_cons']
    constructor
    · intro b hb
      have hlb := runAudioFrames_head_start (scheduleAudioFrame st c d) rest b hb
      rw [scheduleAudioFrame_nextStartTime] at hlb
      exact hlb
    · exact ih _

theorem runAudioFrames_durations (frames : List (ℚ × ℚ)) :
    ∀ (st : LiveAudioState) (i : Nat),
      (((runAudioFrames st frames).2)[i]?).map Prod.snd =
        (frames[i]?).map Prod.snd := by
  induction frames with
  | nil => intro st i; simp [runAudioFrames]
  | cons f rest ih =>
    obtain ⟨c, d⟩ := f
    intro st i
    rw [runAudioFrames_snd_cons]
    cases i with
    | zero => simp
    | succ j =>
      rw [List.getElem?_cons_succ, List.getElem?_cons_succ]
      exact ih _ j

theorem runAudioFrames_length (frames : List (ℚ × ℚ)) :
    ∀ st : LiveAudioState,
      ((runAudioFrames st frames).2).length = frames.length := by
  induction frames with
  | nil => intro st; rfl
  | cons f rest ih =>
    obtain ⟨c, d⟩ := f
    intro st
    rw [runAudioFrames_snd_cons]
    simp [ih]

theorem runAudioFrames_start_eq (frames : List (ℚ × ℚ)) :
    ∀ (st : LiveAudioState) (i : Nat) (a b c : ℚ × ℚ),
      ((runAudioFrames st frames).2)[i]? = some a →
      ((runAudioFrames st frames).2)[i + 1]? = some b →
      frames[i + 1]? = some c →
      b.1 = max (a.1 + a.2) c.1 := by
  induction frames with
  | nil =>
    intro st i a b c ha _ _
    simp [runAudioFrames] at ha
  | cons f rest ih =>
    obtain ⟨cl, d⟩ := f
    intro st i a b c ha hb hc
    rw [runAudioFrames_snd_cons] at ha hb
    cases i with
    | zero =>
      simp only [List.getElem?_cons_zero, Option.some.injEq] at ha
      rw [List.getElem?_cons_succ] at hb hc
      cases rest with
      | nil => simp [runAudioFrames] at hb
      | cons f2 rest2 =>
        obtain ⟨c2, d2⟩ := f2
        rw [runAudioFrames_snd_cons] at hb
        simp only [List.getElem?_cons_zero, Option.some.injEq] at hb hc
        rw [← hb, ← hc, ← ha, scheduleAudioFrame_nextStartTime]
    | succ j =>
      rw [List.getElem?_cons_succ] at ha hb hc
      exact ih _ j a b c ha hb hc

/-- C7: for frames arriving while the session is open, each frame's
scheduled start is the maximum of the playback clock at arrival and the
previous frame's scheduled end, hence the scheduled starts satisfy
start(n+1) ≥ start(n) + d(n) — gapless, non-overlapping, one scheduled
entry per frame with its duration preserved. -/
theorem gapless_playback_schedule (st : LiveAudioState)
    (frames : List (ℚ × ℚ)) :
    ((runAudioFrames st frames).2).length = frames.length ∧
    (∀ i : Nat, (((runAudioFrames st frames).2)[i]?).map Prod.snd =
      (frames[i]?).map Prod.snd) ∧
    List.Chain' (fun a b : ℚ × ℚ => a.1 + a.2 ≤ b.1)
      ((runAudioFrames st frames).2) ∧
    (∀ i : Nat, ∀ a ∈ ((runAudioFrames st frames).2)[i]?,
      ∀ b ∈ ((runAudioFrames st frames).2)[i + 1]?, ∀ c ∈ frames[i + 1]?,
        b.1 = max (a.1 + a.2) c.1 ∧ a.1 + a.2 ≤ b.1) := by
  refine ⟨runAudioFrames_length frames st, runAudioFrames_durations frames st,
    runAudioFrames_chain frames st, ?_⟩
  intro i a ha b hb c hc
  have heq := runAudioFrames_start_eq frames st i a b c ha hb hc
  exact ⟨heq, heq ▸ le_max_left _ _⟩

/-- Concrete frame sequence: durations 2 then 3, clocks 0 then 7. -/
def exFrames : List (ℚ × ℚ) := [(0, 2), (7, 3)]

theorem exFrames_run : (runAudioFrames exLiveState exFrames).2 =
    [((5 : ℚ), 2), (7, 3)] := by
  have h1 : max (5 : ℚ) 0 = 5 := max_eq_left (by norm_num)
  have h2 : max ((5 : ℚ) + 2) 7 = 7 := max_eq_right (by norm_num)
  simp [runAudioFrames, exLiveState, exFrames, scheduleAudioFrame, h1, h2]

/-- Witness for `gapless_playback_schedule` on `exFrames` from
`exLiveState`: the second frame starts at 7 = max(5 + 2, 7), past the first
frame's end 5 + 2. -/
theorem gapless_playback_witness : (5 : ℚ) + 2 ≤ 7 :=
  (((gapless_playback_schedule exLiveState exFrames).2.2.2 0
    (5, 2) (by rw [exFrames_run]; rfl) (7, 3) (by rw [exFrames_run]; rfl)
    (7, 3) (by rfl))).2

/- ### Claim theorems: interruption clears playback (C8) -/

theorem flushBuffers_sources (st : LiveAudioState) :
    (flushBuffers st).sources = st.sources := by
  unfold flushBuffers flushModelBuffer flushUserBuffer
  split <;> split <;> rfl

theorem flushBuffers_nextStartTime (st : LiveAudioState) :
    (flushBuffers st).nextStartTime = st.nextStartTime := by
  unfold flushBuffers flushModelBuffer flushUserBuffer
  split <;> split <;> rfl

theorem handleLiveMessage_sources_of_audio (st : LiveAudioState) (clock : ℚ)
    (msg : LiveServerMessage) (d : ℚ) (hd : msg.audioDuration = some d)
    (hi : msg.interrupted = false) :
    (handleLiveMessage st clock msg).sources =
      st.sources ++
        [{ start := max st.nextStartTime clock, duration := d }] := by
  unfold handleLiveMessage
  rw [hd, hi]
  cases htc : msg.turnComplete with
  | false => simp [scheduleAudioFrame]
  | true => simp [scheduleAudioFrame, flushBuffers_sources]

/-- C8: an interruption signal empties the set of scheduled/playing output
sources and resets the scheduling clock to 0; a frame arriving in a later
message is then scheduled alone, starting from the reset clock. -/
theorem interruption_clears_playback (st : LiveAudioState) (clock : ℚ)
    (msg : LiveServerMessage) (hint : msg.interrupted = true) :
    (handleLiveMessage st clock msg).sources = [] ∧
    (handleLiveMessage st clock msg).nextStartTime = 0 ∧
    (∀ (clock2 : ℚ) (msg2 : LiveServerMessage) (d : ℚ),
      msg2.audioDuration = some d → msg2.interrupted = false →
      (handleLiveMessage (handleLiveMessage st clock msg) clock2
        msg2).sources = [{ start := max 0 clock2, duration := d }]) := by
  have hsrc : (handleLiveMessage st clock msg).sources = [] := by
    unfold handleLiveMessage
    rw [hint]
    simp
  have hnst : (handleLiveMessage st clock msg).nextStartTime = 0 := by
    unfold handleLiveMessage
    rw [hint]
    simp
  refine ⟨hsrc, hnst, ?_⟩
  intro clock2 msg2 d hd hi2
  rw [handleLiveMessage_sources_of_audio _ _ _ d hd hi2, hsrc, hnst]
  rfl

/-- Witness for `interruption_clears_playback` at the concrete state
`exLiveState` (one source scheduled, clock 5) and a message carrying both an
audio frame and the interrupted flag. -/
theorem interruption_clears_playback_witness :
    (handleLiveMessage exLiveState 3 exInterruptMsg).sources = [] ∧
    (handleLiveMessage exLiveState 3 exInterruptMsg).nextStartTime = 0 :=
  ⟨(interruption_clears_playback exLiveState 3 exInterruptMsg rfl).1,
   (interruption_clears_playback exLiveState 3 exInterruptMsg rfl).2.1⟩

/- ### Claim theorems: decision snapshot immutability (C9) -/

theorem foldl_updateProfile_decisions
    (updates : List (UserMemoryProfileDyn × String)) :
    ∀ s : AppDecisionState,
      (updates.foldl (fun acc pu => handleUpdateProfile acc pu.1 pu.2)
        s).decisions = s.decisions := by
  induction updates with
  | nil => intro s; rfl
  | cons u rest ih =>
    intro s
    rw [List.foldl_cons, ih]
    rfl

/-- C9: a decision record snapshots the profile by value at creation time;
after ANY later sequence of profile mutations (synthesizer merges, manual
edits, imports — all of which run `handleUpdateProfile`), the decision
archive still equals the archive at creation with the record's
`contextProfile` equal to the profile as it was when the record was
created. -/
theorem decision_snapshot_immutable (st : AppDecisionState)
    (recId timestamp question decision : String)
    (experts : Option (List ExpertOpinion))
    (updates : List (UserMemoryProfileDyn × String)) :
    (updates.foldl (fun acc pu => handleUpdateProfile acc pu.1 pu.2)
        (handleSimulate st recId timestamp question decision
          experts)).decisions =
      st.decisions ++
        [{ id := recId, timestamp := timestamp, question := question,
           decision := decision, expertOpinions := experts,
           contextProfile := st.profile }] := by
  rw [foldl_updateProfile_decisions]
  rfl

end DigitalTwin
